import Mathlib

/-!
Verification development for the `claude-history-cleaner` tool
(`src/main.rs`).  The Rust source is shallowly embedded: pure helpers become
Lean functions over character lists, the JSONL record schema becomes an
inductive data model, filesystem state becomes explicit record types with a
failure-injection oracle for the fallible `std::fs` calls, and the
interactive selector becomes a step function on an explicit state type.
Serde-JSON line parsing and chrono timestamp parsing are external libraries,
so they are abstracted as function parameters `pl : String → Option JsonlEntry`
and `pts : String → Option Int`; every theorem quantifies over them.
-/

namespace HistoryCleaner

/-! ## Character-list string helpers

These mirror the Rust standard-library string operations actually used by
the source (`starts_with`, `lines().next()`, `trim`, `replace('\t', " ")`),
implemented over `List Char` so that they reduce in the kernel. -/

/-- Rust `s.starts_with(p)` over char lists. -/
def charsStartWith : List Char → List Char → Bool
  | _, [] => true
  | [], _ :: _ => false
  | c :: cs, p :: ps => c == p && charsStartWith cs ps

/-- Rust `str::starts_with`. -/
def strStartsWith (s p : String) : Bool :=
  charsStartWith s.toList p.toList

/-- Rust `str::trim` (leading and trailing whitespace removed). -/
def trimChars (l : List Char) : List Char :=
  ((l.dropWhile Char.isWhitespace).reverse.dropWhile Char.isWhitespace).reverse

/-- Post-processing of extracted message text, from `extract_text_from_content`
(`main.rs` lines 122-128): take only the first line
(`raw.lines().next().unwrap_or("")`), `trim()` it, and replace each literal
tab with a single space. -/
def cleanText (raw : String) : String :=
  ((trimChars (raw.toList.takeWhile (fun c => c ≠ '\n'))).map
    (fun c => if c = '\t' then ' ' else c)).asString

/-! ## JSONL record data model

`JsonlEntry` / `Message` mirror the serde `Deserialize` structs of
`main.rs` lines 46-59.  A message `content` JSON value is either a plain
string, an array of segments, or some other JSON value; an array segment is
either an object (of which the code only observes the string values of its
`type` and `text` fields) or a non-object value. -/

inductive ContentSeg where
  | obj (ty : Option String) (text : Option String) : ContentSeg
  | nonObj : ContentSeg
deriving DecidableEq

inductive ContentVal where
  | str (s : String) : ContentVal
  | arr (segs : List ContentSeg) : ContentVal
  | other : ContentVal
deriving DecidableEq

structure Message where
  content : Option ContentVal
deriving DecidableEq

structure JsonlEntry where
  entry_type : Option String
  message : Option Message
  timestamp : Option String
  session_id : Option String
deriving DecidableEq

/-- Loop body of `extract_text_from_content` for the array case
(`main.rs` lines 104-119): the first object segment whose `type` is
`"text"` and whose `text` is a string not starting with `"<ide_"` wins;
everything else is skipped. The initial `result` is the empty string. -/
def firstTextSeg : List ContentSeg → String
  | [] => ""
  | ContentSeg.obj ty text :: rest =>
    if ty = some "text" then
      match text with
      | some t => if strStartsWith t "<ide_" = false then t else firstTextSeg rest
      | none => firstTextSeg rest
    else firstTextSeg rest
  | ContentSeg.nonObj :: rest => firstTextSeg rest

/-- Embedding of `extract_text_from_content` (`main.rs` lines 101-129). -/
def extract_text_from_content : ContentVal → String
  | ContentVal.str s => cleanText s
  | ContentVal.arr segs => cleanText (firstTextSeg segs)
  | ContentVal.other => cleanText ""

/-- The qualifying-text predicate shared by `extract_title` and
`is_warmup_only` (`main.rs` lines 85 and 152):
`!text.is_empty() && text != "Warmup" && !text.starts_with("<ide_")`. -/
def qualifying (t : String) : Bool :=
  !(t == "") && !(t == "Warmup") && !(strStartsWith t "<ide_")

/-- Title formatting of `extract_title` (`main.rs` lines 86-91):
`text.chars().take(50).collect()`, with `"..."` appended when
`text.chars().count() > 50`. -/
def titleOfText (text : String) : String :=
  let title := (text.toList.take 50).asString
  if text.length > 50 then title ++ "..." else title

/-- Embedding of `extract_title` (`main.rs` lines 78-99).  `pl` abstracts
`serde_json::from_str::<JsonlEntry>` on one line; the content is the list
of lines of the file. -/
def extract_title (pl : String → Option JsonlEntry) : List String → Option String
  | [] => none
  | line :: rest =>
    match pl line with
    | some entry =>
      if entry.entry_type = some "user" then
        match entry.message with
        | some msg =>
          match msg.content with
          | some c =>
            let text := extract_text_from_content c
            if qualifying text then some (titleOfText text) else extract_title pl rest
          | none => extract_title pl rest
        | none => extract_title pl rest
      else extract_title pl rest
    | none => extract_title pl rest

/-- Loop of `extract_timestamp` (`main.rs` lines 131-143) with the mutable
`last_timestamp` made an explicit accumulator.  `pts` abstracts
`ts.parse::<DateTime<Utc>>()`, timestamps being modeled as `Int`. -/
def extract_timestamp_loop (pl : String → Option JsonlEntry)
    (pts : String → Option Int) : Option Int → List String → Option Int
  | acc, [] => acc
  | acc, line :: rest =>
    extract_timestamp_loop pl pts
      (match pl line with
       | some entry =>
         match entry.timestamp with
         | some ts =>
           match pts ts with
           | some dt => some dt
           | none => acc
         | none => acc
       | none => acc) rest

/-- Embedding of `extract_timestamp` (`main.rs` lines 131-143). -/
def extract_timestamp (pl : String → Option JsonlEntry)
    (pts : String → Option Int) (content : List String) : Option Int :=
  extract_timestamp_loop pl pts none content

/-- Embedding of `is_warmup_only` (`main.rs` lines 145-161). -/
def is_warmup_only (pl : String → Option JsonlEntry) : List String → Bool
  | [] => true
  | line :: rest =>
    match pl line with
    | some entry =>
      if entry.entry_type = some "user" then
        match entry.message with
        | some msg =>
          match msg.content with
          | some c =>
            if qualifying (extract_text_from_content c) then false
            else is_warmup_only pl rest
          | none => is_warmup_only pl rest
        | none => is_warmup_only pl rest
      else is_warmup_only pl rest
    | none => is_warmup_only pl rest

/-- Specification-side helper: the qualifying text (if any) contributed by a
single line — some user-tagged record with a message content whose extracted
text is non-empty, not `"Warmup"` and not starting with `"<ide_"`. -/
def qualifyingTextOf (pl : String → Option JsonlEntry) (line : String) : Option String :=
  match pl line with
  | some entry =>
    if entry.entry_type = some "user" then
      match entry.message with
      | some msg =>
        match msg.content with
        | some c =>
          let t := extract_text_from_content c
          if qualifying t then some t else none
        | none => none
      | none => none
    else none
  | none => none

/-- Specification-side helper for `extract_timestamp`: the parsed timestamp
contributed by a single line (if the line parses, carries a timestamp
string, and that string parses). -/
def parsedTsOf (pl : String → Option JsonlEntry) (pts : String → Option Int)
    (line : String) : Option Int :=
  match pl line with
  | some entry =>
    match entry.timestamp with
    | some ts => pts ts
    | none => none
  | none => none

/-- Title format described by the specification: the text unmodified when it
has at most 50 characters, otherwise its first 50 characters followed by an
ellipsis marker. -/
def specTitleFormat (text : String) : String :=
  if text.length ≤ 50 then text else (text.toList.take 50).asString ++ "..."

/-! ## Workspace name decoding -/

/-- Rust `str::replacen('-', "/", 1)` over char lists: only the first `'-'` is
replaced. -/
def replaceDashFirst : List Char → List Char
  | [] => []
  | c :: cs => if c = '-' then '/' :: cs else c :: replaceDashFirst cs

/-- Rust `str::replace('-', "/")` over char lists: every `'-'` is replaced. -/
def replaceDashAll (l : List Char) : List Char :=
  l.map (fun c => if c = '-' then '/' else c)

/-- Embedding of `decode_workspace_name` (`main.rs` lines 70-76). -/
def decode_workspace_name (name : String) : String :=
  if strStartsWith name "-" then
    (replaceDashAll (replaceDashFirst name.toList)).asString
  else
    (replaceDashAll name.toList).asString

/-- Modelled from the spec: re-encoding a decoded workspace path means
"replacing each path separator '/' with the delimiter '-'".  The encoding
direction is performed by the assistant tool itself, not by this program,
so it exists here only to state the round-trip property. -/
def encode_workspace_name (p : String) : String :=
  (p.toList.map (fun c => if c = '/' then '-' else c)).asString

/-! ## Conversation records and the scanner

`Conversation` mirrors the struct of `main.rs` lines 33-44.  Timestamps are
`Int`, paths are plain strings (a path inside a workspace folder is the
folder name, `"/"`, and the file name). -/

structure Conversation where
  path : String
  session_id : String
  workspace_folder : String
  workspace_path : String
  is_empty : Bool
  is_active : Bool
  title : Option String
  timestamp : Option Int
  folder_path : Option String
deriving DecidableEq

/-- One directory entry with a `jsonl`-candidate file, as observed by
`scan_conversations` (`main.rs` lines 180-226): file stem and extension,
size in bytes, content as a list of lines (only read when the size is
non-zero), whether a same-stem sidecar directory exists, and the outcome of
the 5-minute recent-modification heuristic. -/
structure ScannedFile where
  stem : String
  ext : String
  size : Nat
  content : List String
  folderExists : Bool
  recentlyModified : Bool
deriving DecidableEq

/-- Per-file record construction of `scan_conversations`
(`main.rs` lines 188-238). -/
def buildConversation (pl : String → Option JsonlEntry) (pts : String → Option Int)
    (workspaceFolder workspacePath : String) (f : ScannedFile) : Conversation :=
  let isEmpty := f.size == 0
  let isAgent := strStartsWith f.stem "agent-"
  let tw : Option String × Option Int × Bool :=
    if isEmpty then (none, none, false)
    else (extract_title pl f.content, extract_timestamp pl pts f.content,
          is_warmup_only pl f.content)
  let effectiveTitle := if isAgent && tw.2.2 then some "[Warmup]" else tw.1
  { path := workspaceFolder ++ "/" ++ f.stem ++ "." ++ f.ext
    session_id := f.stem
    workspace_folder := workspaceFolder
    workspace_path := workspacePath
    is_empty := isEmpty
    is_active := f.recentlyModified
    title := effectiveTitle
    timestamp := tw.2.1
    folder_path := if f.folderExists then some (workspaceFolder ++ "/" ++ f.stem) else none }

/-- File enumeration of one workspace folder (`main.rs` lines 180-194):
keep files with the `jsonl` extension, and skip agent-prefixed files unless
inclusion is requested. -/
def scanFolder (pl : String → Option JsonlEntry) (pts : String → Option Int)
    (includeAgents : Bool) (workspaceFolder workspacePath : String)
    (files : List ScannedFile) : List Conversation :=
  (files.filter
    (fun f => f.ext == "jsonl" && (!(strStartsWith f.stem "agent-") || includeAgents))).map
    (buildConversation pl pts workspaceFolder workspacePath)

/-- Sort priority of `scan_conversations` (`main.rs` lines 245-249):
2 for empty, 1 for no title or the `"[No title]"` sentinel, 0 otherwise. -/
def priority (c : Conversation) : Nat :=
  if c.is_empty then 2
  else if c.title = none ∨ c.title = some "[No title]" then 1
  else 0

/-- The comparator passed to `sort_by` in `scan_conversations`
(`main.rs` lines 243-262), including its `match (&b.timestamp, &a.timestamp)`
arms verbatim. -/
def scanCompare (a b : Conversation) : Ordering :=
  let pa := priority a
  let pb := priority b
  if pa ≠ pb then compare pa pb
  else
    match b.timestamp, a.timestamp with
    | some tb, some ta => compare tb ta
    | some _, none => Ordering.lt
    | none, some _ => Ordering.gt
    | none, none => compare a.path b.path

/-- The `conversations.sort_by(...)` call: Rust `sort_by` is a stable sort,
modeled with `List.mergeSort` on the non-strict relation induced by the
comparator. -/
def sortConversations (l : List Conversation) : List Conversation :=
  l.mergeSort (fun a b => !(scanCompare a b == Ordering.gt))

/-- One workspace directory under the projects root: its encoded name and
its directory entries. -/
structure WorkspaceDir where
  name : String
  files : List ScannedFile
deriving DecidableEq

/-- Embedding of `scan_conversations` (`main.rs` lines 163-265) over an in-memory
directory tree (the workspace-substring filter, which no claim concerns, is
not modeled).  The decoded workspace path comes from
`decode_workspace_name`, and the result is sorted with `scanCompare`. -/
def scan_conversations (pl : String → Option JsonlEntry) (pts : String → Option Int)
    (includeAgents : Bool) (dirs : List WorkspaceDir) : List Conversation :=
  sortConversations
    (dirs.flatMap
      (fun d => scanFolder pl pts includeAgents d.name (decode_workspace_name d.name) d.files))

/-- The `--delete-warmup` selection predicate (`main.rs` line 769):
`c.title.as_deref() == Some("[Warmup]")`. -/
def warmupDeleteEligible (c : Conversation) : Bool :=
  c.title == some "[Warmup]"

/-! ## Interactive selector state machine

`run_selection` (`main.rs` lines 478-746) is a key-driven loop.  Its state
is the record list, a cursor, a parallel selection vector, and which screen
is shown: the browsing list, the dedicated delete-confirmation screen (the
inner loop at lines 687-734), or the finished/exited screen. -/

inductive SelKey where
  | arrowUp | arrowDown | charJ | charK | charSpace | charA | charN
  | pageUp | pageDown | enter | escape | charQ | other
deriving DecidableEq

inductive SelMode where
  | browsing | confirmingDelete | finished
deriving DecidableEq

structure SelState where
  conversations : List Conversation
  cursor : Nat
  selected : List Bool
  mode : SelMode
deriving DecidableEq

/-- The indices of the selected items
(`main.rs` lines 648-649: `selected.iter().enumerate().filter(...)`). -/
def selectedIndices (sel : List Bool) : List Nat :=
  (sel.enum.filter (fun p => p.2)).map (fun p => p.1)

/-- One key-press transition of the browsing screen
(`main.rs` lines 624-744).  `viewportSize` is the height computed from the
terminal each frame.  Pressing Enter with a non-empty selection enters the
confirmation screen; with an empty selection the arm does nothing.
Escape or `q` quits. -/
def stepBrowsing (viewportSize : Nat) (st : SelState) (k : SelKey) : SelState :=
  match k with
  | SelKey.arrowUp | SelKey.charK =>
    if st.cursor > 0 then { st with cursor := st.cursor - 1 } else st
  | SelKey.arrowDown | SelKey.charJ =>
    if st.cursor < st.conversations.length - 1 then { st with cursor := st.cursor + 1 } else st
  | SelKey.charSpace =>
    { st with
      selected := st.selected.set st.cursor (!(st.selected.getD st.cursor false))
      cursor := if st.cursor < st.conversations.length - 1 then st.cursor + 1 else st.cursor }
  | SelKey.charA => { st with selected := st.selected.map (fun _ => true) }
  | SelKey.charN => { st with selected := st.selected.map (fun _ => false) }
  | SelKey.pageUp => { st with cursor := st.cursor - viewportSize }
  | SelKey.pageDown =>
    { st with cursor := min (st.cursor + viewportSize) (st.conversations.length - 1) }
  | SelKey.enter =>
    if selectedIndices st.selected ≠ [] then { st with mode := SelMode.confirmingDelete }
    else st
  | SelKey.escape | SelKey.charQ => { st with mode := SelMode.finished }
  | SelKey.other => st

/-- One key-press transition of the confirmation screen
(`main.rs` lines 687-734): Enter executes the deletions and finishes,
Escape clears all selection flags and returns to browsing, anything else is
ignored. -/
def stepConfirm (st : SelState) (k : SelKey) : SelState :=
  match k with
  | SelKey.enter => { st with mode := SelMode.finished }
  | SelKey.escape =>
    { st with selected := st.selected.map (fun _ => false), mode := SelMode.browsing }
  | _ => st

/-- The selector step function, dispatching on the current screen. -/
def selStep (viewportSize : Nat) (st : SelState) (k : SelKey) : SelState :=
  match st.mode with
  | SelMode.browsing => stepBrowsing viewportSize st k
  | SelMode.confirmingDelete => stepConfirm st k
  | SelMode.finished => st

/-! ## Deletion cascade

`delete_conversation_with_agents` (`main.rs` lines 306-357) acts on one
workspace folder.  The folder's state is the list of its files and the list
of its (sidecar) directories, both identified by full path strings.  Each
fallible `std::fs` call is given a success/failure outcome by an oracle, so
that error propagation can be stated: `remove_file` (line 311 with `?`,
line 341 with `.is_ok()`), `remove_dir_all` (line 316 with `?`, line 346
with `let _ =`), `read_dir` of the workspace folder (line 324 with `?`),
and `read_to_string` of a sibling (line 336 with `if let Ok`). -/

structure WorkspaceFile where
  stem : String
  ext : String
  content : List String
deriving DecidableEq

/-- The file name of an entry: stem, dot, extension. -/
def WorkspaceFile.fullName (f : WorkspaceFile) : String :=
  f.stem ++ "." ++ f.ext

structure WorkspaceState where
  files : List WorkspaceFile
  dirs : List String
deriving DecidableEq

structure FsOracle where
  removeFileOk : String → Bool
  removeDirOk : String → Bool
  readDirOk : Bool
  readFileOk : String → Bool

/-- Whether one sibling entry is deleted (and counted) by the agent cascade
loop (`main.rs` lines 324-353): it has the `jsonl` extension, an
agent-prefixed stem, its content is readable, its first line parses as a
record whose `sessionId` equals the deleted conversation's session id, and
its own `remove_file` succeeds. -/
def agentMatch (pl : String → Option JsonlEntry) (o : FsOracle)
    (workspaceFolder sid : String) (f : WorkspaceFile) : Bool :=
  f.ext == "jsonl" && strStartsWith f.stem "agent-" &&
  o.readFileOk (workspaceFolder ++ "/" ++ f.fullName) &&
  (match f.content.head? with
   | some line =>
     match pl line with
     | some entry => entry.session_id == some sid
     | none => false
   | none => false) &&
  o.removeFileOk (workspaceFolder ++ "/" ++ f.fullName)

/-- Body of the sibling loop (`main.rs` lines 324-353), threaded over an
accumulator of (files kept in reverse order, remaining directories, count of
agent files deleted). -/
def cascadeStep (pl : String → Option JsonlEntry) (o : FsOracle)
    (workspaceFolder sid : String)
    (acc : List WorkspaceFile × List String × Nat) (f : WorkspaceFile) :
    List WorkspaceFile × List String × Nat :=
  let kept := acc.1
  let dirs := acc.2.1
  let n := acc.2.2
  if f.ext ≠ "jsonl" then (f :: kept, dirs, n)
  else if strStartsWith f.stem "agent-" = false then (f :: kept, dirs, n)
  else if o.readFileOk (workspaceFolder ++ "/" ++ f.fullName) = false then (f :: kept, dirs, n)
  else
    match f.content.head? with
    | none => (f :: kept, dirs, n)
    | some line =>
      match pl line with
      | none => (f :: kept, dirs, n)
      | some entry =>
        if entry.session_id = some sid then
          if o.removeFileOk (workspaceFolder ++ "/" ++ f.fullName) then
            let agentFolder := workspaceFolder ++ "/" ++ f.stem
            let dirs' :=
              if agentFolder ∈ dirs then
                if o.removeDirOk agentFolder then dirs.filter (fun d => d ≠ agentFolder)
                else dirs
              else dirs
            (kept, dirs', n + 1)
          else (f :: kept, dirs, n)
        else (f :: kept, dirs, n)

/-- The agent cascade (`main.rs` lines 320-354): skipped entirely when the
session id is agent-prefixed; otherwise the workspace folder is
re-enumerated (`read_dir`, whose failure propagates through `?`) and each
sibling processed by `cascadeStep`. -/
def deleteAgents (pl : String → Option JsonlEntry) (o : FsOracle)
    (st : WorkspaceState) (conv : Conversation) :
    Except String (WorkspaceState × Nat) :=
  if strStartsWith conv.session_id "agent-" then Except.ok (st, 1)
  else if o.readDirOk = false then Except.error "failed to read workspace folder"
  else
    let r := st.files.foldl (cascadeStep pl o conv.workspace_folder conv.session_id)
      ([], st.dirs, 0)
    Except.ok ({ files := r.1.reverse, dirs := r.2.1 }, 1 + r.2.2)

/-- Embedding of `delete_conversation_with_agents` (`main.rs` lines 306-357): delete the
main transcript (failure propagates), then the recorded sidecar folder if it
still exists (failure propagates), then cascade to referencing agent files.
Returns the new folder state and the count of files removed. -/
def delete_conversation_with_agents (pl : String → Option JsonlEntry) (o : FsOracle)
    (st : WorkspaceState) (conv : Conversation) :
    Except String (WorkspaceState × Nat) :=
  if o.removeFileOk conv.path = false then Except.error "failed to delete main file"
  else
    let files1 := st.files.filter
      (fun f => conv.workspace_folder ++ "/" ++ f.fullName ≠ conv.path)
    match conv.folder_path with
    | some folder =>
      if folder ∈ st.dirs then
        if o.removeDirOk folder then
          deleteAgents pl o
            { files := files1, dirs := st.dirs.filter (fun d => d ≠ folder) } conv
        else Except.error "failed to delete sidecar folder"
      else deleteAgents pl o { files := files1, dirs := st.dirs } conv
    | none => deleteAgents pl o { files := files1, dirs := st.dirs } conv

deriving instance DecidableEq for Except

/-! ## Concrete fixtures used by witnesses and counterexamples -/

/-- A line parser that fails on every line (all lines malformed). -/
def plNone : String → Option JsonlEntry := fun _ => none

/-- A timestamp parser that fails on every string. -/
def ptsNone : String → Option Int := fun _ => none

/-- A line parser for the cascade fixtures: the line `"ref"` parses to a
record whose `sessionId` is `"abc123"`; everything else is malformed. -/
def plSid : String → Option JsonlEntry := fun l =>
  if l = "ref" then some ⟨none, none, none, some "abc123"⟩ else none

/-- Oracle on which every filesystem operation succeeds. -/
def oAllOk : FsOracle := ⟨fun _ => true, fun _ => true, true, fun _ => true⟩

/-- Oracle on which everything succeeds except enumerating the workspace
folder (`read_dir`). -/
def oNoReadDir : FsOracle := ⟨fun _ => true, fun _ => true, false, fun _ => true⟩

/-- Oracle on which every remove_file fails. -/
def oNoRemove : FsOracle := ⟨fun _ => false, fun _ => true, true, fun _ => true⟩

/-- Oracle on which directory removal fails. -/
def oNoRemoveDir : FsOracle := ⟨fun _ => true, fun _ => false, true, fun _ => true⟩

/-- Oracle on which everything succeeds except deleting the sibling agent
file `w/agent-1.jsonl`. -/
def oAgent1Fails : FsOracle :=
  ⟨fun p => p ≠ "w/agent-1.jsonl", fun _ => true, true, fun _ => true⟩

def mainFileFix : WorkspaceFile := ⟨"abc123", "jsonl", ["u"]⟩

def agent1Fix : WorkspaceFile := ⟨"agent-1", "jsonl", ["ref"]⟩

def agent2Fix : WorkspaceFile := ⟨"agent-2", "jsonl", ["other"]⟩

def convMainFix : Conversation :=
  ⟨"w/abc123.jsonl", "abc123", "w", "w", false, false, none, none, none⟩

def convMainFolderFix : Conversation :=
  ⟨"w/abc123.jsonl", "abc123", "w", "w", false, false, none, none, some "w/abc123"⟩

def convAgentFix : Conversation :=
  ⟨"w/agent-1.jsonl", "agent-1", "w", "w", false, false, none, none, none⟩

def convMainFix2 : Conversation :=
  ⟨"w/zzz9.jsonl", "zzz9", "w", "w", false, false, none, none, none⟩

def wsStateFix : WorkspaceState := ⟨[mainFileFix, agent1Fix, agent2Fix], []⟩

/-- A titled conversation without a timestamp. -/
def cNoTs : Conversation :=
  ⟨"p/a.jsonl", "a", "p", "/p", false, false, some "A", none, none⟩

/-- A titled conversation with a timestamp, same tier as `cNoTs`. -/
def cTs : Conversation :=
  ⟨"p/b.jsonl", "b", "p", "/p", false, false, some "B", some 100, none⟩

/-- Two distinct titled conversations with equal timestamps. -/
def cEqA : Conversation :=
  ⟨"p/x.jsonl", "x", "p", "/p", false, false, some "X", some 5, none⟩

def cEqB : Conversation :=
  ⟨"p/y.jsonl", "y", "p", "/p", false, false, some "Y", some 5, none⟩

/-- An empty (0-byte) directory entry; its recorded content lines could
never be read and are arbitrary. -/
def fEmptyFix : ScannedFile := ⟨"agent-e1", "jsonl", 0, ["junk"], false, false⟩

def dirsEmptyFix : List WorkspaceDir := [⟨"-a", [fEmptyFix]⟩]

def cEmptyFix : Conversation :=
  buildConversation plNone ptsNone "-a" (decode_workspace_name "-a") fEmptyFix

/-- A non-empty agent file every line of which is malformed. -/
def fMalformedFix : ScannedFile := ⟨"agent-w", "jsonl", 12, ["oops"], false, false⟩

/-- Browsing selector state with nothing selected. -/
def stSelNone : SelState := ⟨[cNoTs, cTs], 0, [false, false], SelMode.browsing⟩

/-- Browsing selector state with one item selected. -/
def stSelOne : SelState := ⟨[cNoTs, cTs], 0, [true, false], SelMode.browsing⟩

/-! ## Helper lemmas about the transcript parser -/

theorem titleOfText_eq_spec (t : String) : titleOfText t = specTitleFormat t := by
  unfold titleOfText specTitleFormat
  by_cases h : t.length ≤ 50
  · have h2 : ¬ (t.length > 50) := by omega
    simp only [if_neg h2, if_pos h]
    have ht : t.toList.take 50 = t.toList := List.take_of_length_le h
    rw [ht]
    rfl
  · have h2 : t.length > 50 := by omega
    simp only [if_pos h2, if_neg h]

theorem extract_title_cons (pl : String → Option JsonlEntry) (line : String) (rest : List String) :
    extract_title pl (line :: rest) =
      ((qualifyingTextOf pl line).map titleOfText).or (extract_title pl rest) := by
  rw [extract_title, qualifyingTextOf]
  repeat' split
  all_goals try rfl
  all_goals (dsimp only; split <;> rfl)

theorem is_warmup_only_cons (pl : String → Option JsonlEntry) (line : String) (rest : List String) :
    is_warmup_only pl (line :: rest) =
      ((qualifyingTextOf pl line).isNone && is_warmup_only pl rest) := by
  rw [is_warmup_only, qualifyingTextOf]
  repeat' split
  all_goals try rfl
  all_goals (dsimp only; split <;> simp_all)

theorem extract_title_eq (pl : String → Option JsonlEntry) (content : List String) :
    extract_title pl content = (content.findSome? (qualifyingTextOf pl)).map titleOfText := by
  induction content with
  | nil => rfl
  | cons line rest ih =>
    rw [extract_title_cons, ih, List.findSome?_cons]
    cases h : qualifyingTextOf pl line with
    | none => simp [Option.or]
    | some t => simp [Option.or]

theorem is_warmup_only_eq (pl : String → Option JsonlEntry) (content : List String) :
    is_warmup_only pl content = (content.findSome? (qualifyingTextOf pl)).isNone := by
  induction content with
  | nil => rfl
  | cons line rest ih =>
    rw [is_warmup_only_cons, ih, List.findSome?_cons]
    cases h : qualifyingTextOf pl line with
    | none => simp [Option.or]
    | some t => simp [Option.or]

theorem getLast?_cons_or {α : Type} (a : α) (l : List α) :
    (a :: l).getLast? = l.getLast?.or (some a) := by
  cases l with
  | nil => rfl
  | cons b m =>
    rw [List.getLast?_cons_cons]
    cases h : (b :: m).getLast? with
    | none => exact absurd (List.getLast?_eq_none_iff.1 h) (by simp)
    | some c => rfl

theorem tsUpdate_eq (pl : String → Option JsonlEntry) (pts : String → Option Int)
    (acc : Option Int) (line : String) :
    (match pl line with
     | some entry =>
       match entry.timestamp with
       | some ts =>
         match pts ts with
         | some dt => some dt
         | none => acc
       | none => acc
     | none => acc) =
    (parsedTsOf pl pts line).or acc := by
  rw [parsedTsOf]
  repeat' split
  all_goals simp_all [Option.or]

theorem extract_timestamp_loop_eq (pl : String → Option JsonlEntry)
    (pts : String → Option Int) (content : List String) (acc : Option Int) :
    extract_timestamp_loop pl pts acc content =
      ((content.filterMap (parsedTsOf pl pts)).getLast?).or acc := by
  induction content generalizing acc with
  | nil => rfl
  | cons line rest ih =>
    rw [extract_timestamp_loop, tsUpdate_eq, ih, List.filterMap_cons]
    cases hline : parsedTsOf pl pts line with
    | none => simp [Option.or]
    | some b =>
      rw [getLast?_cons_or]
      cases (rest.filterMap (parsedTsOf pl pts)).getLast? with
      | none => rfl
      | some t => rfl

/-! ## Helper lemmas about the deletion cascade -/

theorem cascadeStep_comp (pl : String → Option JsonlEntry) (o : FsOracle)
    (wf sid : String) (kept : List WorkspaceFile) (dirs : List String) (n : Nat)
    (f : WorkspaceFile) :
    (cascadeStep pl o wf sid (kept, dirs, n) f).1 =
      (if agentMatch pl o wf sid f then kept else f :: kept) ∧
    (cascadeStep pl o wf sid (kept, dirs, n) f).2.2 =
      n + (if agentMatch pl o wf sid f then 1 else 0) := by
  rw [cascadeStep, agentMatch]
  repeat' split
  all_goals simp_all

theorem cascade_foldl (pl : String → Option JsonlEntry) (o : FsOracle)
    (wf sid : String) (l : List WorkspaceFile) :
    ∀ (kept : List WorkspaceFile) (dirs : List String) (n : Nat),
    (l.foldl (cascadeStep pl o wf sid) (kept, dirs, n)).1 =
      (l.filter (fun f => !(agentMatch pl o wf sid f))).reverse ++ kept ∧
    (l.foldl (cascadeStep pl o wf sid) (kept, dirs, n)).2.2 =
      n + l.countP (agentMatch pl o wf sid) := by
  induction l with
  | nil => intro kept dirs n; simp
  | cons f rest ih =>
    intro kept dirs n
    rw [List.foldl_cons]
    rcases hstep : cascadeStep pl o wf sid (kept, dirs, n) f with ⟨a, b, c⟩
    have hcomp := cascadeStep_comp pl o wf sid kept dirs n f
    rw [hstep] at hcomp
    by_cases hm : agentMatch pl o wf sid f
    · simp only [hm, if_pos, if_true] at hcomp
      rw [List.filter_cons, List.countP_cons]
      rcases ih a b c with ⟨ih1, ih2⟩
      constructor
      · rw [ih1]
        simp [hm, hcomp.1]
      · rw [ih2]
        simp [hm, hcomp.2]
        omega
    · simp only [hm, if_neg, if_false] at hcomp
      rw [List.filter_cons, List.countP_cons]
      rcases ih a b c with ⟨ih1, ih2⟩
      constructor
      · rw [ih1]
        simp [hm, hcomp.1]
      · rw [ih2]
        simp [hm, hcomp.2]

theorem deleteAgents_result (pl : String → Option JsonlEntry) (o : FsOracle)
    (st : WorkspaceState) (conv : Conversation)
    (h1 : strStartsWith conv.session_id "agent-" = false) (h4 : o.readDirOk = true) :
    ∃ dirs2, deleteAgents pl o st conv =
      Except.ok
        (⟨st.files.filter
            (fun f => !(agentMatch pl o conv.workspace_folder conv.session_id f)), dirs2⟩,
         1 + st.files.countP (agentMatch pl o conv.workspace_folder conv.session_id)) := by
  rw [deleteAgents]
  simp only [h1, h4, Bool.false_eq_true, Bool.true_eq_false, if_false]
  rcases hfold : st.files.foldl
      (cascadeStep pl o conv.workspace_folder conv.session_id) ([], st.dirs, 0)
    with ⟨a, b, c⟩
  have hf := cascade_foldl pl o conv.workspace_folder conv.session_id st.files [] st.dirs 0
  rw [hfold] at hf
  obtain ⟨hf1, hf2⟩ := hf
  simp only [List.append_nil, Nat.zero_add] at hf1 hf2
  refine ⟨b, ?_⟩
  simp only [hfold]
  simp [hf1, hf2]

theorem deleteAgents_agent (pl : String → Option JsonlEntry) (o : FsOracle)
    (st : WorkspaceState) (conv : Conversation)
    (h1 : strStartsWith conv.session_id "agent-" = true) :
    deleteAgents pl o st conv = Except.ok (st, 1) := by
  rw [deleteAgents]
  simp [h1]

theorem delete_ok_shape (pl : String → Option JsonlEntry) (o : FsOracle)
    (st : WorkspaceState) (conv : Conversation)
    (hmain : o.removeFileOk conv.path = true)
    (hside : ∀ fo, conv.folder_path = some fo → fo ∈ st.dirs → o.removeDirOk fo = true) :
    ∃ st1 : WorkspaceState,
      st1.files = st.files.filter
        (fun f => conv.workspace_folder ++ "/" ++ f.fullName ≠ conv.path) ∧
      delete_conversation_with_agents pl o st conv = deleteAgents pl o st1 conv := by
  rw [delete_conversation_with_agents]
  simp only [hmain, Bool.true_eq_false, if_false]
  cases hfp : conv.folder_path with
  | none => exact ⟨_, rfl, rfl⟩
  | some fo =>
    by_cases hmem : fo ∈ st.dirs
    · have hok := hside fo hfp hmem
      simp only [hmem, if_true, hok]
      exact ⟨_, rfl, rfl⟩
    · simp only [hmem, if_false]
      exact ⟨_, rfl, rfl⟩

/-! ## Helper lemmas about workspace-name decoding -/

theorem replaceDashAll_replaceDashFirst (l : List Char) :
    replaceDashAll (replaceDashFirst l) = replaceDashAll l := by
  induction l with
  | nil => rfl
  | cons c cs ih =>
    rw [replaceDashFirst]
    by_cases h : c = '-'
    · simp [h, replaceDashAll]
    · simp only [if_neg h, replaceDashAll, List.map_cons] at *
      rw [ih]

theorem replaceDashAll_eq_self {l : List Char} (h : '-' ∉ l) : replaceDashAll l = l := by
  induction l with
  | nil => rfl
  | cons c cs ih =>
    have hc : c ≠ '-' := fun e => h (e ▸ List.mem_cons_self c cs)
    have hcs : '-' ∉ cs := fun e => h (List.mem_cons_of_mem c e)
    simp only [replaceDashAll, List.map_cons, if_neg hc] at *
    rw [ih hcs]

theorem strStartsWith_dash_false {name : String} (h : '-' ∉ name.toList) :
    strStartsWith name "-" = false := by
  rw [strStartsWith]
  have hd : ("-" : String).toList = ['-'] := rfl
  rw [hd]
  cases hl : name.toList with
  | nil => rfl
  | cons c cs =>
    have hc : c ≠ '-' := by
      intro e
      apply h
      rw [hl, e]
      exact List.mem_cons_self '-' cs
    simp [charsStartWith, hc]

/-! ## Helper lemmas about record construction -/

theorem buildConversation_empty (pl : String → Option JsonlEntry)
    (pts : String → Option Int) (wf wp : String) (f : ScannedFile) (h : f.size = 0) :
    (buildConversation pl pts wf wp f).title = none ∧
    (buildConversation pl pts wf wp f).timestamp = none := by
  rw [buildConversation]
  simp [h]

theorem scan_mem_build (pl : String → Option JsonlEntry) (pts : String → Option Int)
    (inc : Bool) (dirs : List WorkspaceDir) (c : Conversation)
    (h : c ∈ scan_conversations pl pts inc dirs) :
    ∃ d ∈ dirs, ∃ f ∈ d.files,
      c = buildConversation pl pts d.name (decode_workspace_name d.name) f := by
  rw [scan_conversations, sortConversations] at h
  rw [List.mem_mergeSort, List.mem_flatMap] at h
  rcases h with ⟨d, hd, hc⟩
  rw [scanFolder, List.mem_map] at hc
  rcases hc with ⟨f, hf, hbuild⟩
  rw [List.mem_filter] at hf
  exact ⟨d, hd, f, hf.1, hbuild.symm⟩

/-! ## Additional small helpers -/

theorem asString_toList (s : String) : s.toList.asString = s := by
  cases s
  rfl

theorem mapSlash_eq_self {l : List Char} (h : '/' ∉ l) :
    l.map (fun c => if c = '/' then '-' else c) = l := by
  induction l with
  | nil => rfl
  | cons c cs ih =>
    have hc : c ≠ '/' := fun e => h (e ▸ List.mem_cons_self c cs)
    have hcs : '/' ∉ cs := fun e => h (List.mem_cons_of_mem c e)
    simp only [List.map_cons, if_neg hc]
    rw [ih hcs]

/-! ## Claim theorems -/

/-- C4: for every transcript content, `is_warmup_only` returns true exactly
when `extract_title` returns no title; both are decided by the same
qualifying predicate (`qualifyingTextOf`: a user-tagged record whose
extracted message text is non-empty, not exactly "Warmup", and not starting
with "<ide_"), `is_warmup_only` quantifying it over all lines and
`extract_title` taking the first. -/
theorem warmup_iff_no_title (pl : String → Option JsonlEntry) (content : List String) :
    (is_warmup_only pl content = true ↔ extract_title pl content = none) ∧
    (is_warmup_only pl content = true ↔ ∀ l ∈ content, qualifyingTextOf pl l = none) := by
  rw [is_warmup_only_eq, extract_title_eq]
  constructor
  · cases h : content.findSome? (qualifyingTextOf pl) <;> simp
  · rw [← List.findSome?_eq_none_iff]
    cases h : content.findSome? (qualifyingTextOf pl) <;> simp

/-- C6: `extract_title` returns, for the first user record whose extracted
text qualifies, that text unmodified when it has at most 50 characters and
otherwise its first 50 characters followed by the ellipsis marker "...";
it returns none when no record qualifies. -/
theorem extract_title_format (pl : String → Option JsonlEntry) (content : List String) :
    extract_title pl content =
      (content.findSome? (qualifyingTextOf pl)).map specTitleFormat := by
  rw [extract_title_eq]
  cases content.findSome? (qualifyingTextOf pl) with
  | none => rfl
  | some t => simp [titleOfText_eq_spec]

/-- C7: `extract_timestamp` returns the timestamp of the last line (in file
order) that parses as a record carrying a successfully parsed timestamp —
later parsed timestamps overwrite earlier ones — and none when no line
yields a parseable timestamp. -/
theorem extract_timestamp_is_last (pl : String → Option JsonlEntry)
    (pts : String → Option Int) (content : List String) :
    extract_timestamp pl pts content =
      (content.filterMap (parsedTsOf pl pts)).getLast? := by
  rw [extract_timestamp, extract_timestamp_loop_eq]
  cases (content.filterMap (parsedTsOf pl pts)).getLast? <;> rfl

/-- C9 counterexample: the string "a/b" contains no delimiter character,
yet decoding then re-encoding yields "a-b", not "a/b" — the round-trip
claim as stated fails for inputs containing the path separator. -/
theorem decode_roundtrip_cex :
    ('-' ∉ ("a/b" : String).toList) ∧
    encode_workspace_name (decode_workspace_name "a/b") ≠ "a/b" := by
  decide

/-- C9 (amended): `decode_workspace_name` replaces every delimiter with the
path separator (its two branches compute the same replacement, the leading
delimiter becoming the root separator) and always returns a string; and
decoding then re-encoding a workspace name that contains no literal
delimiter and no path separator (a directory-name component never contains
one) yields the original name. -/
theorem decode_workspace_correct (name : String) :
    decode_workspace_name name = (replaceDashAll name.toList).asString ∧
    ('-' ∉ name.toList → '/' ∉ name.toList →
      encode_workspace_name (decode_workspace_name name) = name) := by
  constructor
  · rw [decode_workspace_name]
    by_cases h : strStartsWith name "-" = true
    · rw [if_pos h, replaceDashAll_replaceDashFirst]
    · rw [if_neg (by simp [h])]
  · intro h1 h2
    rw [decode_workspace_name, if_neg (by simp [strStartsWith_dash_false h1])]
    rw [replaceDashAll_eq_self h1, asString_toList]
    rw [encode_workspace_name, mapSlash_eq_self h2, asString_toList]

/-- C9 witness: a plain component round-trips. -/
theorem decode_workspace_correct_witness :
    decode_workspace_name "proj" = (replaceDashAll ("proj" : String).toList).asString ∧
    encode_workspace_name (decode_workspace_name "proj") = "proj" :=
  ⟨(decode_workspace_correct "proj").1,
   (decode_workspace_correct "proj").2 (by decide) (by decide)⟩

/-- C10: a non-empty transcript none of whose lines yields qualifying user
text — in particular one whose lines are all unparseable JSON — classifies
as warmup-only; consequently a non-empty agent file of only malformed lines
receives the "[Warmup]" title and is eligible for warmup-targeted bulk
deletion. -/
theorem malformed_warmup (pl : String → Option JsonlEntry) (pts : String → Option Int)
    (wf wp : String) (f : ScannedFile)
    (hs : f.size ≠ 0) (ha : strStartsWith f.stem "agent-" = true)
    (hq : ∀ l ∈ f.content, qualifyingTextOf pl l = none) :
    is_warmup_only pl f.content = true ∧
    (buildConversation pl pts wf wp f).title = some "[Warmup]" ∧
    warmupDeleteEligible (buildConversation pl pts wf wp f) = true := by
  have hfs : f.content.findSome? (qualifyingTextOf pl) = none :=
    List.findSome?_eq_none_iff.2 hq
  have hw : is_warmup_only pl f.content = true := by
    rw [is_warmup_only_eq, hfs]
    rfl
  have hsize : (f.size == 0) = false := by simp [hs]
  refine ⟨hw, ?_, ?_⟩
  · rw [buildConversation]
    simp [hsize, ha, hw]
  · rw [warmupDeleteEligible, buildConversation]
    simp [hsize, ha, hw]

/-- C10 witness: a non-empty agent file whose single line is malformed
(every line fails to parse) is classified warmup-only and relabeled. -/
theorem malformed_warmup_witness :
    is_warmup_only plNone fMalformedFix.content = true ∧
    (buildConversation plNone ptsNone "w" "w" fMalformedFix).title = some "[Warmup]" ∧
    warmupDeleteEligible (buildConversation plNone ptsNone "w" "w" fMalformedFix) = true :=
  malformed_warmup plNone ptsNone "w" "w" fMalformedFix (by decide) (by decide) (by decide)

/-- C5: a scanned record's `is_empty` is true iff the file size was 0 at
scan time; an empty record has absent title and timestamp (so an empty
agent file never receives the "[Warmup]" override); the record built for an
empty file does not depend on the file content (the file is not read); and
every empty record produced by `scan_conversations` has absent title and
timestamp. -/
theorem empty_record_invariant (pl : String → Option JsonlEntry)
    (pts : String → Option Int) :
    (∀ wf wp f, (buildConversation pl pts wf wp f).is_empty = (f.size == 0)) ∧
    (∀ wf wp f, f.size = 0 → (buildConversation pl pts wf wp f).title = none ∧
      (buildConversation pl pts wf wp f).timestamp = none) ∧
    (∀ wf wp f c', f.size = 0 →
      buildConversation pl pts wf wp { f with content := c' } =
        buildConversation pl pts wf wp f) ∧
    (∀ inc dirs c, c ∈ scan_conversations pl pts inc dirs → c.is_empty = true →
      c.title = none ∧ c.timestamp = none) := by
  refine ⟨fun wf wp f => rfl,
    fun wf wp f h => buildConversation_empty pl pts wf wp f h, ?_, ?_⟩
  · intro wf wp f c' h
    rw [buildConversation, buildConversation]
    simp [h]
  · intro inc dirs c hc hemp
    rcases scan_mem_build pl pts inc dirs c hc with ⟨d, hd, f, hf, hbuild⟩
    subst hbuild
    have hsize : f.size = 0 := by
      have h1 : (buildConversation pl pts d.name (decode_workspace_name d.name) f).is_empty
          = (f.size == 0) := rfl
      rw [h1] at hemp
      simpa using hemp
    exact buildConversation_empty pl pts _ _ f hsize

/-- C5 witness: the invariant evaluated on a concrete 0-byte agent file and
on the record that a concrete scan produces for it. -/
theorem empty_record_invariant_witness :
    (buildConversation plNone ptsNone "w" "w" fEmptyFix).is_empty = (fEmptyFix.size == 0) ∧
    ((buildConversation plNone ptsNone "w" "w" fEmptyFix).title = none ∧
      (buildConversation plNone ptsNone "w" "w" fEmptyFix).timestamp = none) ∧
    buildConversation plNone ptsNone "w" "w" { fEmptyFix with content := ["z"] } =
      buildConversation plNone ptsNone "w" "w" fEmptyFix ∧
    (cEmptyFix.title = none ∧ cEmptyFix.timestamp = none) := by
  have hmem : cEmptyFix ∈ scan_conversations plNone ptsNone true dirsEmptyFix := by
    rw [scan_conversations, sortConversations, List.mem_mergeSort]
    decide
  exact ⟨(empty_record_invariant plNone ptsNone).1 "w" "w" fEmptyFix,
    (empty_record_invariant plNone ptsNone).2.1 "w" "w" fEmptyFix rfl,
    (empty_record_invariant plNone ptsNone).2.2.1 "w" "w" fEmptyFix ["z"] rfl,
    (empty_record_invariant plNone ptsNone).2.2.2 true dirsEmptyFix cEmptyFix hmem rfl⟩

/-- C8: in the Browsing state, pressing the delete key (Enter) with zero
selected items leaves the state unchanged — cursor, selection vector, list
and mode untouched — and the ConfirmingDelete state is reachable only when
at least one item is selected. -/
theorem enter_requires_selection (vp : Nat) (st : SelState)
    (hb : st.mode = SelMode.browsing) :
    (selectedIndices st.selected = [] → selStep vp st SelKey.enter = st) ∧
    (∀ k, (selStep vp st k).mode = SelMode.confirmingDelete →
      selectedIndices st.selected ≠ []) := by
  have hstep : ∀ k, selStep vp st k = stepBrowsing vp st k := by
    intro k
    rw [selStep, hb]
  constructor
  · intro h
    rw [hstep, stepBrowsing]
    simp [h]
  · intro k hk hnil
    rw [hstep] at hk
    cases k <;> simp only [stepBrowsing] at hk <;>
      first
      | (split at hk <;> simp_all)
      | simp_all

/-- C8 witness: with two items and none selected, Enter is a no-op; with an
item selected, Enter does reach the confirmation screen, so the selection
was non-empty. -/
theorem enter_requires_selection_witness :
    selStep 5 stSelNone SelKey.enter = stSelNone ∧
    selectedIndices stSelOne.selected ≠ [] :=
  ⟨(enter_requires_selection 5 stSelNone rfl).1 (by decide),
   (enter_requires_selection 5 stSelOne rfl).2 SelKey.enter (by decide)⟩

/-- C1 (amended): when the main-file deletion, the sidecar-folder deletion
(if one is recorded and still exists) and the re-enumeration of the
workspace folder all succeed, deleting a non-agent conversation returns
1 + N, where N counts the sibling agent-prefixed .jsonl files whose content
is readable, whose first line parses as a record with a matching sessionId,
and whose own deletion succeeds; deleting an agent conversation returns
exactly 1 and never performs the sibling scan (the enumeration outcome is
irrelevant and no sibling file is touched). -/
theorem delete_cascade_count (pl : String → Option JsonlEntry) (o : FsOracle)
    (st : WorkspaceState) (conv : Conversation)
    (hmain : o.removeFileOk conv.path = true)
    (hside : ∀ fo, conv.folder_path = some fo → fo ∈ st.dirs → o.removeDirOk fo = true) :
    (strStartsWith conv.session_id "agent-" = false → o.readDirOk = true →
      ∃ st2, delete_conversation_with_agents pl o st conv =
        Except.ok (st2, 1 +
          (st.files.filter
            (fun f => conv.workspace_folder ++ "/" ++ f.fullName ≠ conv.path)).countP
              (agentMatch pl o conv.workspace_folder conv.session_id))) ∧
    (strStartsWith conv.session_id "agent-" = true →
      ∃ st2, delete_conversation_with_agents pl o st conv = Except.ok (st2, 1) ∧
        st2.files = st.files.filter
          (fun f => conv.workspace_folder ++ "/" ++ f.fullName ≠ conv.path)) := by
  rcases delete_ok_shape pl o st conv hmain hside with ⟨st1, hfiles, heq⟩
  constructor
  · intro h1 h4
    rcases deleteAgents_result pl o st1 conv h1 h4 with ⟨dirs2, hda⟩
    refine ⟨WorkspaceState.mk
      (st1.files.filter (fun f => !(agentMatch pl o conv.workspace_folder conv.session_id f)))
      dirs2, ?_⟩
    rw [heq, hda, hfiles]
  · intro h1
    exact ⟨st1, by rw [heq, deleteAgents_agent pl o st1 conv h1], hfiles⟩

/-- C1 witness: a non-agent conversation referenced by exactly one sibling
agent file removes 2 files; an agent conversation removes exactly 1 and
leaves every sibling in place. -/
theorem delete_cascade_count_witness :
    (∃ st2, delete_conversation_with_agents plSid oAllOk wsStateFix convMainFix =
      Except.ok (st2, 2)) ∧
    (∃ st2, delete_conversation_with_agents plSid oAllOk wsStateFix convAgentFix =
      Except.ok (st2, 1) ∧
      st2.files = wsStateFix.files.filter
        (fun f => convAgentFix.workspace_folder ++ "/" ++ f.fullName ≠ convAgentFix.path)) := by
  constructor
  · rcases (delete_cascade_count plSid oAllOk wsStateFix convMainFix (by decide)
        (fun fo hfo _ => by simp [convMainFix] at hfo)).1 (by decide) (by decide)
      with ⟨st2, h⟩
    exact ⟨st2, h⟩
  · exact (delete_cascade_count plSid oAllOk wsStateFix convAgentFix (by decide)
      (fun fo hfo _ => by simp [convAgentFix] at hfo)).2 (by decide)

/-- C1 counterexample: with the main-file deletion succeeding and no sidecar
folder recorded, but the workspace-folder enumeration failing, deleting a
non-agent conversation does not return 1 + N — the whole call aborts with
the read_dir error (main.rs line 324 applies the error-propagating operator
to fs::read_dir). -/
theorem delete_cascade_count_cex :
    oNoReadDir.removeFileOk convMainFix2.path = true ∧
    convMainFix2.folder_path = none ∧
    delete_conversation_with_agents plSid oNoReadDir ⟨[], []⟩ convMainFix2 =
      Except.error "failed to read workspace folder" := by
  decide

/-- C3 (amended): a failure to delete the main transcript file or the
recorded still-existing sidecar folder aborts the call with a propagated
error; a sibling agent file whose deletion fails during the cascade is
silently skipped (it remains on disk and is not counted); and besides those
two top-level deletions only the workspace-folder enumeration (read_dir)
can abort the operation — whenever it and the two top-level deletions
succeed, the call returns a count. -/
theorem delete_abort_points (pl : String → Option JsonlEntry) (o : FsOracle)
    (st : WorkspaceState) (conv : Conversation) :
    (o.removeFileOk conv.path = false →
      delete_conversation_with_agents pl o st conv =
        Except.error "failed to delete main file") ∧
    (∀ fo, o.removeFileOk conv.path = true → conv.folder_path = some fo →
      fo ∈ st.dirs → o.removeDirOk fo = false →
      delete_conversation_with_agents pl o st conv =
        Except.error "failed to delete sidecar folder") ∧
    (o.removeFileOk conv.path = true →
      (∀ fo, conv.folder_path = some fo → fo ∈ st.dirs → o.removeDirOk fo = true) →
      (strStartsWith conv.session_id "agent-" = false → o.readDirOk = true) →
      ∃ st2 n, delete_conversation_with_agents pl o st conv = Except.ok (st2, n)) ∧
    (o.removeFileOk conv.path = true →
      (∀ fo, conv.folder_path = some fo → fo ∈ st.dirs → o.removeDirOk fo = true) →
      strStartsWith conv.session_id "agent-" = false → o.readDirOk = true →
      ∀ f ∈ st.files, conv.workspace_folder ++ "/" ++ f.fullName ≠ conv.path →
        o.removeFileOk (conv.workspace_folder ++ "/" ++ f.fullName) = false →
        ∃ st2 n, delete_conversation_with_agents pl o st conv = Except.ok (st2, n) ∧
          f ∈ st2.files ∧
          n = 1 + (st.files.filter
              (fun g => conv.workspace_folder ++ "/" ++ g.fullName ≠ conv.path)).countP
            (agentMatch pl o conv.workspace_folder conv.session_id)) := by
  refine ⟨?_, ?_, ?_, ?_⟩
  · intro h
    rw [delete_conversation_with_agents]
    simp [h]
  · intro fo h hfo hmem hfail
    rw [delete_conversation_with_agents]
    simp only [h, Bool.true_eq_false, Bool.false_eq_true, if_false, hfo, hmem, if_true,
      hfail]
  · intro hmain hside hrd
    rcases delete_ok_shape pl o st conv hmain hside with ⟨st1, hfiles, heq⟩
    by_cases hag : strStartsWith conv.session_id "agent-" = true
    · exact ⟨st1, 1, by rw [heq, deleteAgents_agent pl o st1 conv hag]⟩
    · have h1 : strStartsWith conv.session_id "agent-" = false := by simpa using hag
      rcases deleteAgents_result pl o st1 conv h1 (hrd h1) with ⟨dirs2, hda⟩
      exact ⟨_, _, by rw [heq, hda]⟩
  · intro hmain hside hag hrd f hf hne hfail
    rcases delete_ok_shape pl o st conv hmain hside with ⟨st1, hfiles, heq⟩
    rcases deleteAgents_result pl o st1 conv hag hrd with ⟨dirs2, hda⟩
    refine ⟨_, _, by rw [heq, hda], ?_, ?_⟩
    · apply List.mem_filter.2
      refine ⟨?_, ?_⟩
      · rw [hfiles]
        exact List.mem_filter.2 ⟨hf, by simp [hne]⟩
      · simp [agentMatch, hfail]
    · rw [hfiles]

/-- C3 witness: the three behaviors at concrete inputs — main-file failure
aborts, sidecar failure aborts, and a failing sibling deletion is skipped
(the sibling stays and the count excludes it). -/
theorem delete_abort_points_witness :
    delete_conversation_with_agents plSid oNoRemove wsStateFix convMainFix =
      Except.error "failed to delete main file" ∧
    delete_conversation_with_agents plSid oNoRemoveDir
      ⟨[mainFileFix], ["w/abc123"]⟩ convMainFolderFix =
      Except.error "failed to delete sidecar folder" ∧
    (∃ st2 n, delete_conversation_with_agents plSid oAgent1Fails wsStateFix convMainFix =
      Except.ok (st2, n) ∧ agent1Fix ∈ st2.files ∧ n = 1) := by
  refine ⟨?_, ?_, ?_⟩
  · exact (delete_abort_points plSid oNoRemove wsStateFix convMainFix).1 (by decide)
  · exact (delete_abort_points plSid oNoRemoveDir
      ⟨[mainFileFix], ["w/abc123"]⟩ convMainFolderFix).2.1 "w/abc123"
      (by decide) (by decide) (by decide) (by decide)
  · rcases (delete_abort_points plSid oAgent1Fails wsStateFix convMainFix).2.2.2
        (by decide) (fun fo hfo _ => by simp [convMainFix] at hfo) (by decide) (by decide)
        agent1Fix (by decide) (by decide) (by decide)
      with ⟨st2, n, h1, h2, h3⟩
    exact ⟨st2, n, h1, h2, h3⟩

/-- C3 counterexample: a step other than the two top-level deletions aborts
the whole operation — with both top-level deletions succeeding (no sidecar
recorded), a failing workspace-folder enumeration makes the call return an
error instead of completing. -/
theorem delete_abort_points_cex :
    oNoReadDir.removeFileOk convMainFix.path = true ∧
    convMainFix.folder_path = none ∧
    delete_conversation_with_agents plSid oNoReadDir wsStateFix convMainFix =
      Except.error "failed to read workspace folder" := by
  decide

/-- C2: the scan_conversations comparator evaluated at the failing input.
Within one tier a record without a timestamp compares Less than — i.e.
sorts before — a record with one, the opposite of the claim and of the
code's own inline comments ("None at end", "b has time, a doesn't -> b
first"); moreover two distinct same-tier records with equal timestamps
compare Equal, so no path tie-break is ever applied to them. -/
theorem scan_sort_order_bug :
    priority cNoTs = priority cTs ∧ cNoTs.timestamp = none ∧
    cTs.timestamp = some 100 ∧
    scanCompare cNoTs cTs = Ordering.lt ∧
    scanCompare cTs cNoTs = Ordering.gt ∧
    (scanCompare cEqA cEqB = Ordering.eq ∧ cEqA ≠ cEqB) := by
  decide

end HistoryCleaner